import Mathlib

/-!
Shallow embedding of the Wayland event-loop dispatch core of `winit-gtk4`
(`winit-wayland/src/event_loop/mod.rs`), together with theorems about the
callback phase order, the wake/timeout policy and the error paths.

Machine quantities are modelled as follows: `Instant` and `Duration` are `Nat`
(ticks), window identities are `Nat`, sizes are pairs of `Nat`.  The fallible
native operations performed while waiting (connection flush, calloop dispatch)
are modelled by an oracle list of `WakeOutcome` records: each record is one
return from the native readiness wait, carrying the observed clock values, the
flush result and the dispatch result (an arbitrary mutation of the winit state
on success, or an error with an optional raw OS error code).  An empty oracle
models a wait that never returns.
-/

namespace WinitWayland

abbrev WindowId := Nat
abbrev Instant := Nat
abbrev Duration := Nat
abbrev Size := Nat × Nat

/-- `winit_core::event_loop::ControlFlow`. -/
inductive ControlFlow
  | Poll
  | Wait
  | WaitUntil (deadline : Instant)
  deriving DecidableEq, Repr

/-- `winit_core::event::StartCause`. -/
inductive StartCause
  | Init
  | Poll
  | WaitCancelled (start : Instant) (requested_resume : Option Instant)
  | ResumeTimeReached (start : Instant) (requested_resume : Instant)
  deriving DecidableEq, Repr

/-- `winit-wayland/src/window/state.rs`: the per-window frame-callback state.
Modelled from the spec: {Idle, Requested, Received}; `Requested` means a frame
callback from the display server is outstanding. -/
inductive FrameCallbackState
  | Idle
  | Requested
  | Received
  deriving DecidableEq, Repr

/-- The window events the dispatch core emits (`winit_core::event::WindowEvent`,
restricted to the variants the driver produces, plus an opaque payload for raw
events arriving through the sink). -/
inductive WindowEvent
  | ScaleFactorChanged (scale_factor : Nat) (initial_size : Size)
  | SurfaceResized (size : Size)
  | CloseRequested
  | Destroyed
  | RedrawRequested
  | RawWindowEvent (payload : Nat)
  deriving DecidableEq, Repr

abbrev DeviceEvent := Nat

/-- `event_loop/mod.rs`: `enum Event` — the sink's event type. -/
inductive Event
  | WindowEvent (window_id : WindowId) (event : WindowEvent)
  | DeviceEvent (event : DeviceEvent)
  deriving DecidableEq, Repr

/-- One invocation of an `ApplicationHandler` callback, as recorded in the
trace of an iteration. -/
inductive Callback
  | new_events (cause : StartCause)
  | can_create_surfaces
  | proxy_wake_up
  | window_event (window_id : WindowId) (event : WindowEvent)
  | device_event (device_id : Option Nat) (event : DeviceEvent)
  | about_to_wait
  deriving DecidableEq, Repr

/-- `winit-wayland/src/state.rs`: `WindowCompositorUpdate` — one coalesced
record of pending derived state changes for a window. -/
structure WindowCompositorUpdate where
  window_id : WindowId
  resized : Bool
  scale_changed : Bool
  close_window : Bool
  deriving DecidableEq, Repr

/-- The per-window mutable record of the Window State Store
(`winit-wayland/src/window/state.rs`, consumed through the interface the spec
lists in §6).  `redraw_owed` backs the spec-modelled `refresh_frame` query. -/
structure WindowState where
  scale_factor : Nat
  surface_size : Size
  frame_callback_state : FrameCallbackState
  redraw_owed : Bool
  deriving DecidableEq, Repr

instance : Inhabited WindowState :=
  ⟨{ scale_factor := 1, surface_size := (0, 0),
     frame_callback_state := FrameCallbackState.Idle, redraw_owed := false }⟩

/-- The per-window pending-request flags of the window-requests store
(`WindowRequests` in `winit-wayland/src/window/mod.rs`, not under `src/`;
consumed through `take_closed` / `take_redraw_requested`). -/
structure WindowRequests where
  closed : Bool
  redraw_requested : Bool
  deriving DecidableEq, Repr

instance : Inhabited WindowRequests := ⟨{ closed := false, redraw_requested := false }⟩

/-- Modelled from the spec: `WindowRequests::take_closed` (window store code not
under `src/`) — consume-and-reset of the closed flag, returning whether the
window had been marked closed. -/
def WindowRequests.take_closed (r : WindowRequests) : Bool × WindowRequests :=
  (r.closed, { r with closed := false })

/-- Modelled from the spec: `WindowRequests::take_redraw_requested` (window
store code not under `src/`) — atomic swap of the redraw-requested flag with
`false`, returning the previous value. -/
def WindowRequests.take_redraw_requested (r : WindowRequests) : Bool × WindowRequests :=
  (r.redraw_requested, { r with redraw_requested := false })

/-- Modelled from the spec: `frame_callback_reset` resets the frame-callback
state to `Idle` once consumed by the driver (window store code not under
`src/`). -/
def WindowState.frame_callback_reset (w : WindowState) : WindowState :=
  { w with frame_callback_state := FrameCallbackState.Idle }

/-- Modelled from the spec: `refresh_frame() -> bool` of the Window State Store
is an idempotent query reporting whether a redraw is still owed (window store
code not under `src/`). -/
def WindowState.refresh_frame (w : WindowState) : Bool :=
  w.redraw_owed

/-- Modelled from the spec: `logical_to_physical_rounded`
(`winit-wayland/src/lib.rs`, not under `src/`) — the physical size implied by
pure scaling of a logical size; over natural scale factors the rounding is the
identity. -/
def logical_to_physical_rounded (s : Size) (scale_factor : Nat) : Size :=
  (s.1 * scale_factor, s.2 * scale_factor)

/-- Modelled from the spec: `PhysicalSize::to_logical` — the inverse direction
of the pure scaling. -/
def physical_to_logical (s : Size) (scale_factor : Nat) : Size :=
  (s.1 / scale_factor, s.2 / scale_factor)

namespace Store

/-- Association-list view of the per-window hash maps (`windows`,
`window_requests`). -/
def get (m : List (WindowId × α)) (k : WindowId) : Option α :=
  match m with
  | [] => none
  | (k', v) :: rest => if k' = k then some v else get rest k

/-- In-place update of the entry at a key (the `get_mut` pattern: entries are
never inserted by the driver, only mutated). -/
def modify (m : List (WindowId × α)) (k : WindowId) (f : α → α) : List (WindowId × α) :=
  match m with
  | [] => []
  | (k', v) :: rest => (k', if k' = k then f v else v) :: modify rest k f

/-- `HashMap::remove`. -/
def remove (m : List (WindowId × α)) (k : WindowId) : List (WindowId × α) :=
  match m with
  | [] => []
  | (k', v) :: rest => if k' = k then remove rest k else (k', v) :: remove rest k

/-- `HashMap::keys`. -/
def keys (m : List (WindowId × α)) : List WindowId :=
  m.map Prod.fst

end Store

/-- `winit-wayland/src/state.rs`: the fields of `WinitState` the dispatch core
reads and writes (the sinks, the compositor-update aggregator, the two wake
flags, and the two per-window stores). -/
structure WinitState where
  proxy_wake_up : Bool
  dispatched_events : Bool
  window_compositor_updates : List WindowCompositorUpdate
  window_events_sink : List Event
  events_sink : List Event
  windows : List (WindowId × WindowState)
  window_requests : List (WindowId × WindowRequests)
  deriving DecidableEq, Repr

/-- The application's reactive behaviour the dispatch core can observe: what it
writes into the `SurfaceSizeWriter` handed to it inside a `ScaleFactorChanged`
event (the identity models an application that leaves the proposed size
untouched). -/
structure App where
  write_size : WindowId → Size → Size

/-- An application that never overrides the proposed surface size. -/
def App.passive : App := ⟨fun _ s => s⟩

/-- `event_loop/mod.rs` line 819: the minimum of two optional durations where
`None` is an infinite timeout, not a zero one (`a.map_or(b, ...)`). -/
def min_timeout (a b : Option Duration) : Option Duration :=
  match a with
  | none => b
  | some a_timeout =>
    match b with
    | none => some a_timeout
    | some b_timeout => some (min a_timeout b_timeout)

/-- `single_iteration`, lines 341-378: the `scale_changed` half of processing
one compositor update.  Reads the window's scale factor and current physical
size, delivers `ScaleFactorChanged` with a size-negotiation handle initialised
to that size, reads back what the application wrote, and when the application
altered the size, requests the corresponding logical size on the window and
marks the record `resized`. -/
def process_scale_update (app : App) (st : WinitState) (cu : WindowCompositorUpdate) :
    WinitState × WindowCompositorUpdate × List Callback :=
  let window_id := cu.window_id
  if cu.scale_changed then
    let window := (Store.get st.windows window_id).getD default
    let scale_factor := window.scale_factor
    let physical_size := logical_to_physical_rounded window.surface_size scale_factor
    -- Stash the old window size.
    let old_physical_size := physical_size
    let event := WindowEvent.ScaleFactorChanged scale_factor old_physical_size
    let trace := [Callback.window_event window_id event]
    -- What the application wrote into the surface-size writer during the callback.
    let physical_size := app.write_size window_id old_physical_size
    -- Resize the window when user altered the size.
    if old_physical_size ≠ physical_size then
      let new_logical_size := physical_to_logical physical_size scale_factor
      let st := { st with
        windows := Store.modify st.windows window_id
          fun w => { w with surface_size := new_logical_size } }
      -- Make it queue resize.
      (st, { cu with resized := true }, trace)
    else
      (st, cu, trace)
  else
    (st, cu, [])

/-- `single_iteration`, lines 339-409: processing of one drained compositor
update: the scale phase, then `SurfaceResized` when the record is resized or
rescaled (recomputing the physical size from the possibly-updated logical size
and marking the window as needing a redraw), then `CloseRequested` when the
compositor asked to close. -/
def process_compositor_update (app : App) (st : WinitState) (cu : WindowCompositorUpdate) :
    WinitState × List Callback :=
  let window_id := cu.window_id
  let (st, cu, trace_scale) := process_scale_update app st cu
  let (st, trace_resize) :=
    if cu.resized || cu.scale_changed then
      let window := (Store.get st.windows window_id).getD default
      let scale_factor := window.scale_factor
      let size := logical_to_physical_rounded window.surface_size scale_factor
      -- Mark the window as needed a redraw.
      let st := { st with
        window_requests := Store.modify st.window_requests window_id
          fun r => { r with redraw_requested := true } }
      (st, [Callback.window_event window_id (WindowEvent.SurfaceResized size)])
    else
      (st, [])
  let trace_close :=
    if cu.close_window then [Callback.window_event window_id WindowEvent.CloseRequested] else []
  (st, trace_scale ++ trace_resize ++ trace_close)

/-- The `for compositor_update in compositor_updates.drain(..)` loop: records
are processed in the aggregator's order. -/
def process_compositor_updates (app : App) (st : WinitState) :
    List WindowCompositorUpdate → WinitState × List Callback
  | [] => (st, [])
  | cu :: rest =>
    let (st', trace) := process_compositor_update app st cu
    let (st'', trace') := process_compositor_updates app st' rest
    (st'', trace ++ trace')

/-- Modelled from the spec: the Compositor Update Aggregator
(`WinitState::window_compositor_updates` maintenance in
`winit-wayland/src/state.rs`, not under `src/`): a notification for a window
merges into that window's existing record when one is already pending this
iteration, and otherwise appends a fresh record — at most one record per
window identity per iteration. -/
def queue_compositor_update (updates : List WindowCompositorUpdate) (window_id : WindowId)
    (f : WindowCompositorUpdate → WindowCompositorUpdate) : List WindowCompositorUpdate :=
  if updates.any fun u => u.window_id == window_id then
    updates.map fun u => if u.window_id == window_id then f u else u
  else
    updates ++
      [f { window_id := window_id, resized := false, scale_changed := false,
           close_window := false }]

/-- Modelled from the spec: a scale-change notification marks the window's
record `scale_changed`. -/
def queue_scale_changed (updates : List WindowCompositorUpdate) (window_id : WindowId) :
    List WindowCompositorUpdate :=
  queue_compositor_update updates window_id fun u => { u with scale_changed := true }

/-- Modelled from the spec: a resize notification marks the window's record
`resized`. -/
def queue_resized (updates : List WindowCompositorUpdate) (window_id : WindowId) :
    List WindowCompositorUpdate :=
  queue_compositor_update updates window_id fun u => { u with resized := true }

/-- Draining the sink: a window event goes to `window_event`, a device event to
`device_event` with no device id. -/
def event_to_callback : Event → Callback
  | Event.WindowEvent window_id event => Callback.window_event window_id event
  | Event.DeviceEvent event => Callback.device_event none event

/-- `single_iteration`, lines 446-476: the destroy/redraw decision for one
window id.  If the window was marked closed, remove it from both stores and
produce `Destroyed`; otherwise, unless a frame callback is outstanding, reset
the frame-callback state, take the pending redraw-requested flag, or it with
the refresh-frame query, and produce `RedrawRequested` when set. -/
def process_window (st : WinitState) (window_id : WindowId) :
    WinitState × Option WindowEvent :=
  let requests := (Store.get st.window_requests window_id).getD default
  let (was_closed, requests) := requests.take_closed
  if was_closed then
    let st := { st with
      window_requests := Store.remove st.window_requests window_id,
      windows := Store.remove st.windows window_id }
    (st, some WindowEvent.Destroyed)
  else
    let window := (Store.get st.windows window_id).getD default
    if window.frame_callback_state = FrameCallbackState.Requested then
      (st, none)
    else
      -- Reset the frame callbacks state.
      let window := window.frame_callback_reset
      let (redraw_requested, requests) := requests.take_redraw_requested
      -- Redraw the frame while at it.
      let redraw_requested := redraw_requested || window.refresh_frame
      let st := { st with
        windows := Store.modify st.windows window_id fun _ => window,
        window_requests := Store.modify st.window_requests window_id fun _ => requests }
      (st, if redraw_requested then some WindowEvent.RedrawRequested else none)

/-- The `for window_id in window_ids.iter()` destroy/redraw pass. -/
def process_windows (st : WinitState) : List WindowId → WinitState × List Callback
  | [] => (st, [])
  | window_id :: rest =>
    let (st', event) := process_window st window_id
    let trace :=
      match event with
      | some ev => [Callback.window_event window_id ev]
      | none => []
    let (st'', trace') := process_windows st' rest
    (st'', trace ++ trace')

/-- `single_iteration`, lines 487-506: after `about_to_wait`, re-check every
still-live window for a pending frame refresh, marking it redraw-requested and
requesting a wake-up of the loop when one exists. -/
def post_wait_refresh (st : WinitState) : List WindowId → WinitState × Bool
  | [] => (st, false)
  | window_id :: rest =>
    let (st', wake) :=
      match Store.get st.windows window_id with
      | some window =>
        let refresh := window.refresh_frame
        if refresh then
          ({ st with
             window_requests := Store.modify st.window_requests window_id
               fun r => { r with redraw_requested := true } }, true)
        else (st, false)
      | none => (st, false)
    let (st'', wake') := post_wait_refresh st' rest
    (st'', wake || wake')

/-- The result of one iteration: the state after it, the sequence of
application callbacks it invoked, and whether the loop's awakener was pinged
at the end. -/
structure IterationResult where
  state : WinitState
  trace : List Callback
  pinged : Bool
  deriving Repr

/-- `EventLoop::single_iteration` (lines 312-519): one full pass through the
fixed callback phase order. -/
def single_iteration (app : App) (st : WinitState) (cause : StartCause) : IterationResult :=
  let trace_new_events := [Callback.new_events cause]
  let trace_init :=
    if cause = StartCause.Init then [Callback.can_create_surfaces] else []
  -- Indicate user wake up (`mem::take(&mut state.proxy_wake_up)`).
  let proxy := st.proxy_wake_up
  let st := { st with proxy_wake_up := false }
  let trace_proxy := if proxy then [Callback.proxy_wake_up] else []
  -- Drain the pending compositor updates.
  let compositor_updates := st.window_compositor_updates
  let st := { st with window_compositor_updates := [] }
  let (st, trace_compositor) := process_compositor_updates app st compositor_updates
  -- Push the events directly from the window.
  let window_sink := st.window_events_sink
  let st := { st with window_events_sink := [] }
  let trace_window_sink := window_sink.map event_to_callback
  -- Handle non-synthetic events.
  let sink := st.events_sink
  let st := { st with events_sink := [] }
  let trace_sink := sink.map event_to_callback
  -- Collect the window ids.
  let window_ids := Store.keys st.window_requests
  let (st, trace_pass) := process_windows st window_ids
  -- Reset the hint that we've dispatched events.
  let st := { st with dispatched_events := false }
  -- This is always the last event we dispatch before poll again.
  let trace_about_to_wait := [Callback.about_to_wait]
  -- Update the window frames and schedule redraws.
  let (st, wake_up) := post_wait_refresh st window_ids
  { state := st,
    trace := trace_new_events ++ trace_init ++ trace_proxy ++ trace_compositor ++
      trace_window_sink ++ trace_sink ++ trace_pass ++ trace_about_to_wait,
    pinged := wake_up }

/-- The result of one `loop_dispatch` call: on success, an arbitrary mutation
of the winit state performed by the dispatched native callbacks; on failure,
the error's optional raw OS error code. -/
inductive DispatchOutcome
  | ok (effect : WinitState → WinitState)
  | err (raw_os_error : Option Int)

/-- One return from the native readiness wait, as observed by the body of the
`poll_events_with_timeout` loop: the clock at the top of the pass, whether the
connection flush succeeded, the dispatch result, and the clock when the wake
cause is classified after dispatching. -/
structure WakeOutcome where
  start : Instant
  flush_ok : Bool
  dispatch : DispatchOutcome
  now_after_dispatch : Instant

/-- `PumpEventNotifierAction`: the tri-state handshake shared with the
background notifier thread. -/
inductive PumpEventNotifierAction
  | Monitor
  | Pause
  | Shutdown
  deriving DecidableEq, Repr

/-- `PumpEventNotifier`: the contents of the control mutex, and the presence of
the worker's wake-pipe write end and of the thread join handle. -/
structure PumpEventNotifier where
  control : PumpEventNotifierAction
  worker_waker : Option Unit
  handle : Option Unit
  deriving DecidableEq, Repr

/-- The environment of one `PumpEventNotifier::spawn` call: whether the wake
pipe can be created and whether the worker thread can be spawned. -/
structure SpawnEnv where
  pipe_ok : Bool
  thread_ok : Bool
  deriving DecidableEq, Repr

/-- `PumpEventNotifier::spawn` (lines 751-803): starts from the `Pause` state;
when the wake pipe cannot be created, returns a notifier with no thread and no
waker; otherwise spawns the worker (keeping the join handle only when the spawn
succeeded) and keeps the pipe's write end as the waker. -/
def PumpEventNotifier.spawn (env : SpawnEnv) : PumpEventNotifier :=
  -- Start from the waiting state.
  let control := PumpEventNotifierAction.Pause
  if !env.pipe_ok then
    { control := control, handle := none, worker_waker := none }
  else
    { control := control,
      handle := if env.thread_ok then some () else none,
      worker_waker := some () }

/-- `PumpStatus` of `winit_core::event_loop::pump_events`. -/
inductive PumpStatus
  | Continue
  | Exit (code : Int)
  deriving DecidableEq, Repr

/-- The driver state of `EventLoop` together with the cells of its
`ActiveEventLoop` (`control_flow`, `exit`). -/
structure EventLoop where
  loop_running : Bool
  control_flow : ControlFlow
  exit : Option Int
  state : WinitState
  pump_event_notifier : Option PumpEventNotifier

/-- `poll_events_with_timeout`, lines 249-256: the control-flow-implied wait
bound (`Wait` → unbounded, `Poll` → zero, `WaitUntil d` →
`d.saturating_duration_since(start)`). -/
def control_flow_timeout (cf : ControlFlow) (start : Instant) : Option Duration :=
  match cf with
  | ControlFlow.Wait => none
  | ControlFlow.Poll => some 0
  | ControlFlow.WaitUntil wait_deadline => some (wait_deadline - start)

/-- `poll_events_with_timeout`, lines 285-295: classification of the wake cause
from the control-flow policy. -/
def classify_cause (cf : ControlFlow) (start now : Instant) : StartCause :=
  match cf with
  | ControlFlow.Poll => StartCause.Poll
  | ControlFlow.Wait => StartCause.WaitCancelled start none
  | ControlFlow.WaitUntil deadline =>
    if now < deadline then StartCause.WaitCancelled start (some deadline)
    else StartCause.ResumeTimeReached start deadline

/-- Whether a cause matches `StartCause::WaitCancelled { .. }`. -/
def StartCause.is_wait_cancelled : StartCause → Bool
  | StartCause.WaitCancelled _ _ => true
  | _ => false

/-- `EventLoop::poll_events_with_timeout` (lines 240-310) over an oracle of
wake outcomes.  Each pass re-combines the caller timeout with the control-flow
bound (the `mut timeout` reassignment), flushes (exiting with code 1 on
failure), dispatches (exiting with the raw OS error code, or 1, on failure),
classifies the cause, and suppresses spurious `WaitCancelled` wakes with no
dispatched events when the combined timeout is unbounded; otherwise it runs one
iteration.  An exhausted oracle models a wait that never returns. -/
def poll_events_with_timeout (app : App) (el : EventLoop) (timeout : Option Duration) :
    List WakeOutcome → EventLoop × List Callback
  | [] => (el, [])
  | outcome :: rest =>
    let start := outcome.start
    let timeout := min_timeout (control_flow_timeout el.control_flow start) timeout
    if !outcome.flush_ok then
      ({ el with exit := some 1 }, [])
    else
      match outcome.dispatch with
      | DispatchOutcome.err raw_os_error =>
        ({ el with exit := some (raw_os_error.getD 1) }, [])
      | DispatchOutcome.ok effect =>
        let el := { el with state := effect el.state }
        let cause := classify_cause el.control_flow start outcome.now_after_dispatch
        -- Reduce spurious wake-ups.
        let dispatched_events := el.state.dispatched_events
        if cause.is_wait_cancelled && !dispatched_events && timeout.isNone then
          poll_events_with_timeout app el timeout rest
        else
          let result := single_iteration app el.state cause
          ({ el with state := result.state }, result.trace)

/-- `EventLoop::pump_app_events` (lines 198-238): run the one-time `Init`
iteration when the loop was not yet running, then (unless the `Init` iteration
requested exit) poll; report `Exit` when an exit code is set, otherwise lazily
spawn the pump-event notifier on a bounded-timeout call and switch it to
`Monitor` before returning `Continue`. -/
def pump_app_events (app : App) (env : SpawnEnv) (el : EventLoop)
    (timeout : Option Duration) (oracle : List WakeOutcome) :
    EventLoop × PumpStatus × List Callback :=
  let (el, trace_init) :=
    if !el.loop_running then
      let el := { el with loop_running := true }
      -- Run the initial loop iteration.
      let result := single_iteration app el.state StartCause.Init
      ({ el with state := result.state }, result.trace)
    else (el, [])
  -- Consider the possibility that the `StartCause::Init` iteration could
  -- request to Exit.
  let (el, trace_poll) :=
    if el.exit.isNone then poll_events_with_timeout app el timeout oracle
    else (el, [])
  match el.exit with
  | some code => ({ el with loop_running := false }, PumpStatus.Exit code, trace_init ++ trace_poll)
  | none =>
    let el :=
      if timeout.isSome && el.pump_event_notifier.isNone then
        { el with pump_event_notifier := some (PumpEventNotifier.spawn env) }
      else el
    let el :=
      match el.pump_event_notifier with
      | some notifier =>
        let notifier := { notifier with control := PumpEventNotifierAction.Monitor }
        { el with pump_event_notifier := some notifier }
      | none => el
    (el, PumpStatus.Continue, trace_init ++ trace_poll)

/-- Whether a callback is one of the per-event callbacks (`window_event` /
`device_event`), as opposed to a phase-marker callback. -/
def Callback.is_event_callback : Callback → Bool
  | Callback.window_event _ _ => true
  | Callback.device_event _ _ => true
  | _ => false

/-- Whether a callback is `new_events` (every iteration invokes it exactly
once, first, so it counts iterations in a trace). -/
def Callback.is_new_events : Callback → Bool
  | Callback.new_events _ => true
  | _ => false

/-- The window identity a callback is scoped to, when it is window-scoped. -/
def Callback.tagged_window : Callback → Option WindowId
  | Callback.window_event window_id _ => some window_id
  | _ => none

/-- A winit state with empty sinks and stores, used as a concrete fixture. -/
def WinitState.empty : WinitState :=
  { proxy_wake_up := false, dispatched_events := false, window_compositor_updates := [],
    window_events_sink := [], events_sink := [], windows := [], window_requests := [] }

/-- A concrete steady-state event loop fixture (loop already running). -/
def sample_loop : EventLoop :=
  { loop_running := true, control_flow := ControlFlow.Wait, exit := none,
    state := WinitState.empty, pump_event_notifier := none }

/-- A running loop whose application chose `ControlFlow::WaitUntil(100)`. -/
def sample_wait_until_loop : EventLoop :=
  { loop_running := true, control_flow := ControlFlow.WaitUntil 100, exit := none,
    state := WinitState.empty, pump_event_notifier := none }

/-- A fresh loop on which `pump_app_events` has never been called. -/
def sample_fresh_loop : EventLoop :=
  { loop_running := false, control_flow := ControlFlow.Wait, exit := none,
    state := WinitState.empty, pump_event_notifier := none }

/-- A concrete window: logical size 4×4 at scale factor 2, no outstanding
frame callback, no redraw owed. -/
def sample_window : WindowState :=
  { scale_factor := 2, surface_size := (4, 4),
    frame_callback_state := FrameCallbackState.Idle, redraw_owed := false }

/-- A state holding `sample_window` under identity 1. -/
def sample_scale_state : WinitState :=
  { WinitState.empty with windows := [(1, sample_window)] }

/-- An application that always writes 6×6 into the size-negotiation handle. -/
def resize_app : App := ⟨fun _ _ => (6, 6)⟩

/-- A pending scale-change record for window 1. -/
def sample_scale_record : WindowCompositorUpdate :=
  { window_id := 1, resized := false, scale_changed := true, close_window := false }

/-- A state where window 1 is live, not closed, and has a pending redraw
request. -/
def redraw_state : WinitState :=
  { WinitState.empty with
    windows := [(1, sample_window)]
    window_requests := [(1, (⟨false, true⟩ : WindowRequests))] }

/-- A state where window 1 has been marked closed. -/
def closing_state : WinitState :=
  { WinitState.empty with
    windows := [(1, sample_window)]
    window_requests := [(1, (⟨true, false⟩ : WindowRequests))] }

/-! ### Store lemmas -/

namespace Store

theorem get_modify_self (m : List (WindowId × α)) (k : WindowId) (f : α → α) :
    get (modify m k f) k = (get m k).map f := by
  induction m with
  | nil => rfl
  | cons e rest ih =>
    obtain ⟨a, v⟩ := e
    by_cases h : a = k
    · subst h
      simp [modify, get]
    · simp [modify, get, h, ih]

theorem get_modify_ne (m : List (WindowId × α)) (k k' : WindowId) (f : α → α)
    (h : k' ≠ k) : get (modify m k f) k' = get m k' := by
  induction m with
  | nil => rfl
  | cons e rest ih =>
    obtain ⟨a, v⟩ := e
    by_cases he : a = k
    · subst he
      simp [modify, get, Ne.symm h, ih]
    · by_cases he' : a = k'
      · subst he'
        simp [modify, get, he]
      · simp [modify, get, he, he', ih]

theorem get_remove_self (m : List (WindowId × α)) (k : WindowId) :
    get (remove m k) k = none := by
  induction m with
  | nil => rfl
  | cons e rest ih =>
    obtain ⟨a, v⟩ := e
    by_cases h : a = k
    · subst h
      simpa [remove] using ih
    · simpa [remove, get, h] using ih

theorem get_remove_ne (m : List (WindowId × α)) (k k' : WindowId) (h : k' ≠ k) :
    get (remove m k) k' = get m k' := by
  induction m with
  | nil => rfl
  | cons e rest ih =>
    obtain ⟨a, v⟩ := e
    by_cases he : a = k
    · subst he
      simpa [remove, get, Ne.symm h] using ih
    · simp [remove, get, he, ih]

theorem keys_modify (m : List (WindowId × α)) (k : WindowId) (f : α → α) :
    keys (modify m k f) = keys m := by
  induction m with
  | nil => rfl
  | cons e rest ih =>
    obtain ⟨a, v⟩ := e
    by_cases h : a = k
    · subst h
      simp [modify, keys] at ih ⊢
      exact ih
    · simp [modify, keys, h] at ih ⊢
      exact ih

theorem get_isSome_iff_mem_keys (m : List (WindowId × α)) (k : WindowId) :
    (get m k).isSome ↔ k ∈ keys m := by
  induction m with
  | nil => simp [get, keys]
  | cons e rest ih =>
    obtain ⟨a, v⟩ := e
    by_cases h : a = k
    · subst h
      simp [get, keys]
    · simp [get, keys, h, ih, Ne.symm h]

theorem get_eq_none_of_not_mem_keys (m : List (WindowId × α)) (k : WindowId)
    (h : k ∉ keys m) : get m k = none := by
  cases hg : get m k with
  | none => rfl
  | some v =>
    exact absurd ((get_isSome_iff_mem_keys m k).1 (by simp [hg])) h

theorem mem_keys_of_get_some (m : List (WindowId × α)) (k : WindowId) (v : α)
    (h : get m k = some v) : k ∈ keys m :=
  (get_isSome_iff_mem_keys m k).1 (by simp [h])

theorem isSome_get_modify (m : List (WindowId × α)) (k wid : WindowId) (f : α → α) :
    (get (modify m k f) wid).isSome = (get m wid).isSome := by
  by_cases h : wid = k
  · subst h
    rw [get_modify_self]
    cases get m wid <;> rfl
  · rw [get_modify_ne _ _ _ _ h]

end Store

/-- A sink event maps to a window-scoped callback exactly for the matching
window event. -/
theorem window_event_mem_map_sink (l : List Event) (wid : WindowId) (ev : WindowEvent) :
    Callback.window_event wid ev ∈ l.map event_to_callback ↔
      Event.WindowEvent wid ev ∈ l := by
  induction l with
  | nil => simp
  | cons e rest ih =>
    cases e <;> simp [event_to_callback, ih]

/-- The post-`about_to_wait` refresh sweep never touches the windows store,
the sinks or the flags, never changes the key set of the requests store, and
preserves presence of every requests entry. -/
theorem post_wait_refresh_parts (st : WinitState) (ids : List WindowId) :
    (post_wait_refresh st ids).1.windows = st.windows ∧
    (post_wait_refresh st ids).1.window_events_sink = st.window_events_sink ∧
    (post_wait_refresh st ids).1.events_sink = st.events_sink ∧
    (post_wait_refresh st ids).1.proxy_wake_up = st.proxy_wake_up ∧
    (post_wait_refresh st ids).1.dispatched_events = st.dispatched_events ∧
    ∀ wid, (Store.get (post_wait_refresh st ids).1.window_requests wid).isSome =
      (Store.get st.window_requests wid).isSome := by
  induction ids generalizing st with
  | nil => exact ⟨rfl, rfl, rfl, rfl, rfl, fun _ => rfl⟩
  | cons id₀ rest ih =>
    simp only [post_wait_refresh]
    rcases hw : Store.get st.windows id₀ with _ | window
    · simp only [hw]
      rcases hrec : post_wait_refresh st rest with ⟨st', wake⟩
      have h := ih st
      rw [hrec] at h
      simpa using h
    · simp only [hw]
      by_cases hrefresh : window.refresh_frame = true
      · rw [if_pos hrefresh]
        rcases hrec : post_wait_refresh { st with window_requests :=
            (Store.modify st.window_requests id₀
              fun r => { r with redraw_requested := true }) } rest with ⟨st', wake⟩
        have h := ih { st with window_requests :=
            (Store.modify st.window_requests id₀
              fun r => { r with redraw_requested := true }) }
        rw [hrec] at h
        simp only at h
        obtain ⟨t₁, t₂, t₃, t₄, t₅, t₆⟩ := h
        exact ⟨t₁, t₂, t₃, t₄, t₅,
          fun wid => (t₆ wid).trans (Store.isSome_get_modify _ _ _ _)⟩
      · rw [if_neg hrefresh]
        rcases hrec : post_wait_refresh st rest with ⟨st', wake⟩
        have h := ih st
        rw [hrec] at h
        simpa using h

/-! ### Trace-shape lemmas for the compositor phase and the destroy/redraw pass -/

/-- Components of the scale phase: it never changes the record's identity,
`scale_changed` or `close_window` flags, can only strengthen `resized`
(leaving `resized || scale_changed` unchanged), and yields exactly one
`ScaleFactorChanged` callback when and only when the record is rescaled. -/
theorem process_scale_update_parts (app : App) (st : WinitState)
    (cu : WindowCompositorUpdate) :
    (process_scale_update app st cu).2.1.window_id = cu.window_id ∧
    (process_scale_update app st cu).2.1.scale_changed = cu.scale_changed ∧
    (process_scale_update app st cu).2.1.close_window = cu.close_window ∧
    ((process_scale_update app st cu).2.1.resized ||
        (process_scale_update app st cu).2.1.scale_changed) =
      (cu.resized || cu.scale_changed) ∧
    ∃ s z, (process_scale_update app st cu).2.2 =
      if cu.scale_changed then
        [Callback.window_event cu.window_id (WindowEvent.ScaleFactorChanged s z)]
      else [] := by
  simp only [process_scale_update]
  split_ifs with h₁ h₂ <;> simp [h₁]

/-- The callbacks one compositor record yields: an optional
`ScaleFactorChanged`, then an optional `SurfaceResized` (emitted exactly when
the record was resized or rescaled), then an optional `CloseRequested`, all
scoped to the record's window. -/
theorem process_compositor_update_trace (app : App) (st : WinitState)
    (cu : WindowCompositorUpdate) :
    ∃ s z₁ z₂, (process_compositor_update app st cu).2 =
      (if cu.scale_changed then
          [Callback.window_event cu.window_id (WindowEvent.ScaleFactorChanged s z₁)]
        else []) ++
      (if cu.resized || cu.scale_changed then
          [Callback.window_event cu.window_id (WindowEvent.SurfaceResized z₂)]
        else []) ++
      (if cu.close_window then
          [Callback.window_event cu.window_id WindowEvent.CloseRequested]
        else []) := by
  obtain ⟨hw, hsc, hcl, hres, s, z, htr⟩ := process_scale_update_parts app st cu
  simp only [process_compositor_update]
  rcases hcall : process_scale_update app st cu with ⟨st', cu', tr⟩
  rw [hcall] at hw hsc hcl hres htr
  simp only at hw hsc hcl hres htr
  rw [hsc] at hres
  refine ⟨s, z,
    logical_to_physical_rounded ((Store.get st'.windows cu.window_id).getD default).surface_size
      ((Store.get st'.windows cu.window_id).getD default).scale_factor, ?_⟩
  simp only [hw, hsc, hcl, htr]
  by_cases hb : (cu.resized || cu.scale_changed) = true <;> simp [hb, hres]

theorem process_compositor_update_trace_mem (app : App) (st : WinitState)
    (cu : WindowCompositorUpdate) (c : Callback)
    (h : c ∈ (process_compositor_update app st cu).2) :
    ∃ ev, c = Callback.window_event cu.window_id ev ∧
      ev ≠ WindowEvent.Destroyed ∧ ev ≠ WindowEvent.RedrawRequested := by
  obtain ⟨s, z₁, z₂, htr⟩ := process_compositor_update_trace app st cu
  rw [htr] at h
  simp only [List.mem_append] at h
  rcases h with (h | h) | h <;> split at h <;> simp at h <;> subst h
  · exact ⟨_, rfl, by simp, by simp⟩
  · exact ⟨_, rfl, by simp, by simp⟩
  · exact ⟨_, rfl, by simp, by simp⟩

theorem process_compositor_updates_trace_mem (app : App) (st : WinitState)
    (cus : List WindowCompositorUpdate) (c : Callback)
    (h : c ∈ (process_compositor_updates app st cus).2) :
    ∃ cu ∈ cus, ∃ ev, c = Callback.window_event cu.window_id ev ∧
      ev ≠ WindowEvent.Destroyed ∧ ev ≠ WindowEvent.RedrawRequested := by
  induction cus generalizing st with
  | nil => simp [process_compositor_updates] at h
  | cons cu rest ih =>
    simp only [process_compositor_updates, List.mem_append] at h
    rcases h with h | h
    · obtain ⟨ev, hc, h₁, h₂⟩ := process_compositor_update_trace_mem app st cu c h
      exact ⟨cu, by simp, ev, hc, h₁, h₂⟩
    · obtain ⟨cu', hm, hrest⟩ := ih _ h
      exact ⟨cu', by simp [hm], hrest⟩

/-- Processing one compositor record leaves the wake flags, the sinks and the
pending-update list untouched, never adds or removes a window from either
store, and never changes a window's closed mark. -/
theorem process_compositor_update_state (app : App) (st : WinitState)
    (cu : WindowCompositorUpdate) :
    (process_compositor_update app st cu).1.proxy_wake_up = st.proxy_wake_up ∧
    (process_compositor_update app st cu).1.dispatched_events = st.dispatched_events ∧
    (process_compositor_update app st cu).1.window_compositor_updates =
      st.window_compositor_updates ∧
    (process_compositor_update app st cu).1.window_events_sink = st.window_events_sink ∧
    (process_compositor_update app st cu).1.events_sink = st.events_sink ∧
    Store.keys (process_compositor_update app st cu).1.windows = Store.keys st.windows ∧
    Store.keys (process_compositor_update app st cu).1.window_requests =
      Store.keys st.window_requests ∧
    ∀ wid, (Store.get (process_compositor_update app st cu).1.window_requests wid).map
        WindowRequests.closed =
      (Store.get st.window_requests wid).map WindowRequests.closed := by
  have hclosed : ∀ (m : List (WindowId × WindowRequests)) (k wid : WindowId),
      (Store.get (Store.modify m k fun r => { r with redraw_requested := true }) wid).map
        WindowRequests.closed = (Store.get m wid).map WindowRequests.closed := by
    intro m k wid
    by_cases h : wid = k
    · subst h
      rw [Store.get_modify_self]
      cases Store.get m wid <;> rfl
    · rw [Store.get_modify_ne _ _ _ _ h]
  simp only [process_compositor_update, process_scale_update]
  split_ifs <;> simp [Store.keys_modify, hclosed]

/-- The preservation facts of `process_compositor_update_state`, folded over a
whole list of records. -/
theorem process_compositor_updates_state (app : App) (st : WinitState)
    (cus : List WindowCompositorUpdate) :
    (process_compositor_updates app st cus).1.proxy_wake_up = st.proxy_wake_up ∧
    (process_compositor_updates app st cus).1.dispatched_events = st.dispatched_events ∧
    (process_compositor_updates app st cus).1.window_compositor_updates =
      st.window_compositor_updates ∧
    (process_compositor_updates app st cus).1.window_events_sink = st.window_events_sink ∧
    (process_compositor_updates app st cus).1.events_sink = st.events_sink ∧
    Store.keys (process_compositor_updates app st cus).1.windows = Store.keys st.windows ∧
    Store.keys (process_compositor_updates app st cus).1.window_requests =
      Store.keys st.window_requests ∧
    ∀ wid, (Store.get (process_compositor_updates app st cus).1.window_requests wid).map
        WindowRequests.closed =
      (Store.get st.window_requests wid).map WindowRequests.closed := by
  induction cus generalizing st with
  | nil => simp [process_compositor_updates]
  | cons cu rest ih =>
    obtain ⟨h₁, h₂, h₃, h₄, h₅, h₆, h₇, h₈⟩ := process_compositor_update_state app st cu
    obtain ⟨g₁, g₂, g₃, g₄, g₅, g₆, g₇, g₈⟩ := ih (process_compositor_update app st cu).1
    rcases hcall : process_compositor_update app st cu with ⟨st', tr⟩
    rw [hcall] at h₁ h₂ h₃ h₄ h₅ h₆ h₇ h₈ g₁ g₂ g₃ g₄ g₅ g₆ g₇ g₈
    simp only at h₁ h₂ h₃ h₄ h₅ h₆ h₇ h₈ g₁ g₂ g₃ g₄ g₅ g₆ g₇ g₈
    simp only [process_compositor_updates, hcall]
    exact ⟨g₁.trans h₁, g₂.trans h₂, g₃.trans h₃, g₄.trans h₄, g₅.trans h₅,
      g₆.trans h₆, g₇.trans h₇, fun wid => (g₈ wid).trans (h₈ wid)⟩

/-- Every callback of the destroy/redraw pass is a window event scoped to one
of the processed window ids. -/
theorem process_windows_trace_mem (st : WinitState) (ids : List WindowId) (c : Callback)
    (h : c ∈ (process_windows st ids).2) :
    ∃ wid ∈ ids, ∃ ev, c = Callback.window_event wid ev := by
  induction ids generalizing st with
  | nil => simp [process_windows] at h
  | cons wid rest ih =>
    simp only [process_windows, List.mem_append] at h
    rcases h with h | h
    · rcases hev : (process_window st wid).2 with _ | ev <;> rw [hev] at h
      · simp at h
      · simp at h
        exact ⟨wid, by simp, ev, h⟩
    · obtain ⟨wid', hm, hrest⟩ := ih _ h
      exact ⟨wid', by simp [hm], hrest⟩

end WinitWayland

namespace WinitWayland

/-- C3: `min_timeout` treats `None` as an infinite timeout: `min_timeout(None,
None) = None`, `min_timeout(None, Some t) = Some t`, and `min_timeout(Some a,
Some b) = Some (min a b)` for all durations `t`, `a`, `b`. -/
theorem min_timeout_spec (t a b : Duration) :
    min_timeout none none = none ∧
    min_timeout none (some t) = some t ∧
    min_timeout (some a) (some b) = some (min a b) :=
  ⟨rfl, rfl, rfl⟩

/-- C2 counterexample: the claim ties the spurious-wake suppression to the
CALLER's pump timeout, but the code checks the combined timeout.  With
`ControlFlow::WaitUntil(100)`, a caller timeout of `None`, a wake at time 50
classified `WaitCancelled`, and no dispatched events, the code still runs a
full iteration (`new_events` … `about_to_wait`), because the combined timeout
is `Some(100)`, not `None`. -/
theorem wait_cancelled_suppression_counterexample :
    (classify_cause sample_wait_until_loop.control_flow 0 50).is_wait_cancelled = true ∧
    ((fun s => s) sample_wait_until_loop.state).dispatched_events = false ∧
    (poll_events_with_timeout App.passive sample_wait_until_loop none
        [⟨0, true, DispatchOutcome.ok (fun s => s), 50⟩]).2 =
      [Callback.new_events (StartCause.WaitCancelled 0 (some 100)),
       Callback.about_to_wait] :=
  ⟨rfl, rfl, rfl⟩

/-- C2 (amended): for a wake whose classified cause is `WaitCancelled`, if no
events were dispatched during the wait and the COMBINED wait timeout — the
minimum of the caller's pump timeout and the control-flow bound, which is
unbounded exactly when the caller passed no timeout and the policy is `Wait` —
is unbounded, no iteration is produced for that wake: the driver silently
recurses on the remaining wakes, and when no further wake arrives, no
application callback is invoked at all. -/
theorem wait_cancelled_suppression (app : App) (el : EventLoop) (timeout : Option Duration)
    (outcome : WakeOutcome) (rest : List WakeOutcome) (effect : WinitState → WinitState)
    (h_flush : outcome.flush_ok = true)
    (h_dispatch : outcome.dispatch = DispatchOutcome.ok effect)
    (h_cause : (classify_cause el.control_flow outcome.start
        outcome.now_after_dispatch).is_wait_cancelled = true)
    (h_quiet : (effect el.state).dispatched_events = false)
    (h_unbounded :
      min_timeout (control_flow_timeout el.control_flow outcome.start) timeout = none) :
    poll_events_with_timeout app el timeout (outcome :: rest) =
      poll_events_with_timeout app { el with state := effect el.state } none rest ∧
    (poll_events_with_timeout app el timeout [outcome]).2 = [] := by
  constructor
  · simp [poll_events_with_timeout, h_flush, h_dispatch, h_cause, h_quiet, h_unbounded]
  · simp [poll_events_with_timeout, h_flush, h_dispatch, h_cause, h_quiet, h_unbounded]

/-- Witness for C2 (amended): under `ControlFlow::Wait` with no caller timeout,
a spurious `WaitCancelled` wake with no dispatched events invokes no
callback. -/
theorem wait_cancelled_suppression_witness :
    (⟨0, true, DispatchOutcome.ok (fun s => s), 5⟩ : WakeOutcome).flush_ok = true ∧
    (classify_cause sample_loop.control_flow 0 5).is_wait_cancelled = true ∧
    ((fun s => s) sample_loop.state).dispatched_events = false ∧
    min_timeout (control_flow_timeout sample_loop.control_flow 0) none = none ∧
    (poll_events_with_timeout App.passive sample_loop none
        [⟨0, true, DispatchOutcome.ok (fun s => s), 5⟩]).2 = [] :=
  ⟨rfl, rfl, rfl, rfl,
   (wait_cancelled_suppression App.passive sample_loop none
      ⟨0, true, DispatchOutcome.ok (fun s => s), 5⟩ [] (fun s => s)
      rfl rfl rfl rfl rfl).2⟩

/-! ### Counting iterations by their `new_events` callback -/

theorem countP_new_events_map_sink (l : List Event) :
    (l.map event_to_callback).countP Callback.is_new_events = 0 := by
  induction l with
  | nil => rfl
  | cons e rest ih =>
    cases e <;> simp [event_to_callback, List.countP_cons, Callback.is_new_events, ih]

theorem countP_new_events_compositor (app : App) (st : WinitState)
    (cus : List WindowCompositorUpdate) :
    (process_compositor_updates app st cus).2.countP Callback.is_new_events = 0 := by
  apply List.countP_eq_zero.mpr
  intro c hc
  obtain ⟨cu, _, ev, hc, _, _⟩ := process_compositor_updates_trace_mem app st cus c hc
  subst hc
  simp [Callback.is_new_events]

theorem countP_new_events_pass (st : WinitState) (ids : List WindowId) :
    (process_windows st ids).2.countP Callback.is_new_events = 0 := by
  apply List.countP_eq_zero.mpr
  intro c hc
  obtain ⟨wid, _, ev, hc⟩ := process_windows_trace_mem st ids c hc
  subst hc
  simp [Callback.is_new_events]

/-- Every iteration invokes `new_events` exactly once. -/
theorem countP_new_events_single_iteration (app : App) (st : WinitState) (cause : StartCause) :
    (single_iteration app st cause).trace.countP Callback.is_new_events = 1 := by
  simp only [single_iteration, List.countP_append, countP_new_events_map_sink,
    countP_new_events_compositor, countP_new_events_pass]
  split_ifs <;> simp [List.countP_cons, Callback.is_new_events]

/-- A poll drives at most one iteration. -/
theorem countP_new_events_poll (app : App) (el : EventLoop) (timeout : Option Duration)
    (oracle : List WakeOutcome) :
    (poll_events_with_timeout app el timeout oracle).2.countP Callback.is_new_events ≤ 1 := by
  induction oracle generalizing el timeout with
  | nil => simp [poll_events_with_timeout]
  | cons o rest ih =>
    by_cases hf : o.flush_ok
    · cases hd : o.dispatch with
      | ok effect =>
        simp only [poll_events_with_timeout, hf, hd, Bool.not_true]
        rw [if_neg (by simp)]
        split_ifs with hc
        · exact ih _ _
        · simp [countP_new_events_single_iteration]
      | err code =>
        have hf' : o.flush_ok = true := hf
        simp [poll_events_with_timeout, hf', hd]
    · have hf' : o.flush_ok = false := by simpa using hf
      simp [poll_events_with_timeout, hf']

/-- C4 counterexample: on the very first call of a run, `pump_app_events`
drives the synthetic `Init` iteration and then a second, polled iteration: the
trace of a single call contains two `new_events` invocations, contradicting
"the phase sequence is executed at most once per call, including the very
first call of a run". -/
theorem pump_single_iteration_counterexample :
    ¬ ((pump_app_events App.passive ⟨true, true⟩ sample_fresh_loop none
        [⟨0, true, DispatchOutcome.ok (fun s => { s with dispatched_events := true }),
          0⟩]).2.2.countP Callback.is_new_events ≤ 1) := by
  decide

/-- C4 (amended): `pump_app_events` drives at most one iteration per call once
a run is in progress (`loop_running`); on the very first call of a run it
additionally drives the one-time `Init` iteration, so at most two iterations,
counted by their mandatory leading `new_events` callback. -/
theorem pump_at_most_one_iteration (app : App) (env : SpawnEnv) (el : EventLoop)
    (timeout : Option Duration) (oracle : List WakeOutcome) :
    (pump_app_events app env el timeout oracle).2.2.countP Callback.is_new_events ≤ 2 ∧
    (el.loop_running = true →
      (pump_app_events app env el timeout oracle).2.2.countP Callback.is_new_events ≤ 1) := by
  obtain ⟨lr, cf, ex, st₀, pen⟩ := el
  have bound : ∀ el₁ : EventLoop,
      (poll_events_with_timeout app el₁ timeout oracle).2.countP Callback.is_new_events ≤ 1 :=
    fun el₁ => countP_new_events_poll app el₁ timeout oracle
  cases lr with
  | true =>
    have hle : (pump_app_events app env ⟨true, cf, ex, st₀, pen⟩
        timeout oracle).2.2.countP Callback.is_new_events ≤ 1 := by
      cases ex with
      | some code => simp [pump_app_events]
      | none =>
        rcases hpoll : poll_events_with_timeout app ⟨true, cf, none, st₀, pen⟩
            timeout oracle with ⟨el₂, tp⟩
        have h₂ := bound ⟨true, cf, none, st₀, pen⟩
        rw [hpoll] at h₂
        simp only at h₂
        cases hex₂ : el₂.exit with
        | some code => simpa [pump_app_events, hpoll, hex₂] using h₂
        | none => simpa [pump_app_events, hpoll, hex₂] using h₂
    exact ⟨le_trans hle (by omega), fun _ => hle⟩
  | false =>
    have h₁ := countP_new_events_single_iteration app st₀ StartCause.Init
    have hle : (pump_app_events app env ⟨false, cf, ex, st₀, pen⟩
        timeout oracle).2.2.countP Callback.is_new_events ≤ 2 := by
      rcases hinit : single_iteration app st₀ StartCause.Init with ⟨st₁, ti, p₁⟩
      rw [hinit] at h₁
      simp only at h₁
      cases ex with
      | some code =>
        simp [pump_app_events, hinit, List.countP_append, h₁]
      | none =>
        rcases hpoll : poll_events_with_timeout app ⟨true, cf, none, st₁, pen⟩
            timeout oracle with ⟨el₂, tp⟩
        have h₂ := bound ⟨true, cf, none, st₁, pen⟩
        rw [hpoll] at h₂
        simp only at h₂
        cases hex₂ : el₂.exit with
        | some code =>
          simp [pump_app_events, hinit, hpoll, hex₂, List.countP_append, h₁]
          omega
        | none =>
          simp [pump_app_events, hinit, hpoll, hex₂, List.countP_append, h₁]
          omega
    exact ⟨hle, fun hcontra => by simp at hcontra⟩

/-- Witness for C4 (amended): a steady-state call (loop already running) with
one quiet wake invokes `new_events` at most once. -/
theorem pump_at_most_one_iteration_witness :
    sample_loop.loop_running = true ∧
    (pump_app_events App.passive ⟨true, true⟩ sample_loop none
        [⟨0, true, DispatchOutcome.ok (fun s => { s with dispatched_events := true }),
          0⟩]).2.2.countP Callback.is_new_events ≤ 1 :=
  ⟨rfl,
   (pump_at_most_one_iteration App.passive ⟨true, true⟩ sample_loop none
      [⟨0, true, DispatchOutcome.ok (fun s => { s with dispatched_events := true }), 0⟩]).2 rfl⟩

/-- C9: fatal I/O failures terminate the run without retrying and without
delivering any event: a connection-flush failure sets the exit code to 1 and
returns immediately (no dispatch, no callback, independent of any further
wakes); a dispatch failure sets the exit code to the error's raw OS error code
(1 when absent) and returns immediately with no callback invoked. -/
theorem fatal_io_failures_terminate (app : App) (el : EventLoop) (timeout : Option Duration)
    (outcome : WakeOutcome) (rest : List WakeOutcome) :
    (outcome.flush_ok = false →
      poll_events_with_timeout app el timeout (outcome :: rest) =
        ({ el with exit := some 1 }, [])) ∧
    (∀ raw_os_error, outcome.flush_ok = true →
      outcome.dispatch = DispatchOutcome.err raw_os_error →
      poll_events_with_timeout app el timeout (outcome :: rest) =
        ({ el with exit := some (raw_os_error.getD 1) }, [])) := by
  constructor
  · intro h
    simp [poll_events_with_timeout, h]
  · intro raw_os_error hflush hdispatch
    simp [poll_events_with_timeout, hflush, hdispatch]

/-- Witness for C9 at concrete inputs: a failed flush yields exit code 1 with
an empty callback trace, and a failed dispatch carrying raw OS error 11 yields
exit code 11 with an empty trace, in both cases ignoring later wakes. -/
theorem fatal_io_failures_terminate_witness :
    poll_events_with_timeout App.passive sample_loop none
        [⟨0, false, DispatchOutcome.ok id, 0⟩, ⟨1, true, DispatchOutcome.ok id, 1⟩] =
      ({ sample_loop with exit := some 1 }, []) ∧
    poll_events_with_timeout App.passive sample_loop none
        [⟨0, true, DispatchOutcome.err (some 11), 0⟩] =
      ({ sample_loop with exit := some 11 }, []) :=
  ⟨(fatal_io_failures_terminate App.passive sample_loop none
      ⟨0, false, DispatchOutcome.ok id, 0⟩ [⟨1, true, DispatchOutcome.ok id, 1⟩]).1 rfl,
   (fatal_io_failures_terminate App.passive sample_loop none
      ⟨0, true, DispatchOutcome.err (some 11), 0⟩ []).2 (some 11) rfl rfl⟩

/-- C10: when the pump-event notifier's wake pipe cannot be created, `spawn`
returns a notifier with no worker thread and no waker handle; a
bounded-timeout `pump_app_events` call still stores it and returns `Continue`
(no error is surfaced), and because the stored notifier is non-`None`, a later
bounded-timeout call performs no new spawn even in an environment where the
pipe would now succeed: the stored notifier still has no waker and no thread. -/
theorem pump_notifier_pipe_failure (app : App) (env env' : SpawnEnv) (el : EventLoop)
    (t t' : Duration)
    (h_exit : el.exit = none) (h_notifier : el.pump_event_notifier = none)
    (h_pipe : env.pipe_ok = false) :
    PumpEventNotifier.spawn env =
      { control := PumpEventNotifierAction.Pause, worker_waker := none, handle := none } ∧
    (pump_app_events app env el (some t) []).2.1 = PumpStatus.Continue ∧
    (pump_app_events app env el (some t) []).1.pump_event_notifier =
      some { control := PumpEventNotifierAction.Monitor, worker_waker := none, handle := none } ∧
    (pump_app_events app env'
        (pump_app_events app env el (some t) []).1 (some t') []).1.pump_event_notifier =
      some { control := PumpEventNotifierAction.Monitor, worker_waker := none, handle := none } := by
  have hspawn : PumpEventNotifier.spawn env =
      { control := PumpEventNotifierAction.Pause, worker_waker := none, handle := none } := by
    simp [PumpEventNotifier.spawn, h_pipe]
  refine ⟨hspawn, ?_, ?_, ?_⟩ <;>
    by_cases h : el.loop_running <;>
      simp [pump_app_events, poll_events_with_timeout, h, h_exit, h_notifier, hspawn]

/-- Witness for C10: the crippled notifier scenario at a concrete loop state
with the pipe failing on the first call and succeeding on the second. -/
theorem pump_notifier_pipe_failure_witness :
    sample_loop.exit = none ∧ sample_loop.pump_event_notifier = none ∧
    (SpawnEnv.mk false true).pipe_ok = false ∧
    ((pump_app_events App.passive ⟨false, true⟩ sample_loop (some 0) []).2.1 =
        PumpStatus.Continue ∧
      (pump_app_events App.passive ⟨true, true⟩
          (pump_app_events App.passive ⟨false, true⟩ sample_loop (some 0) []).1
          (some 5) []).1.pump_event_notifier =
        some { control := PumpEventNotifierAction.Monitor, worker_waker := none,
               handle := none }) :=
  ⟨rfl, rfl, rfl,
   (pump_notifier_pipe_failure App.passive ⟨false, true⟩ ⟨true, true⟩ sample_loop 0 5
      rfl rfl rfl).2.1,
   (pump_notifier_pipe_failure App.passive ⟨false, true⟩ ⟨true, true⟩ sample_loop 0 5
      rfl rfl rfl).2.2.2⟩

/-- The trace of the compositor-update drain splits into per-record blocks, in
the order the records sit in the aggregator, each block scoped to its record's
window. -/
theorem process_compositor_updates_blocks (app : App) (st : WinitState)
    (cus : List WindowCompositorUpdate) :
    ∃ blocks : List (List Callback), blocks.length = cus.length ∧
      (process_compositor_updates app st cus).2 = blocks.flatten ∧
      ∀ i (h₁ : i < blocks.length) (h₂ : i < cus.length), ∀ c ∈ blocks.get ⟨i, h₁⟩,
        ∃ ev, c = Callback.window_event (cus.get ⟨i, h₂⟩).window_id ev := by
  induction cus generalizing st with
  | nil => exact ⟨[], rfl, by simp [process_compositor_updates], by simp⟩
  | cons cu rest ih =>
    obtain ⟨blocks, hlen, hflat, htag⟩ := ih (process_compositor_update app st cu).1
    refine ⟨(process_compositor_update app st cu).2 :: blocks, by simp [hlen], ?_, ?_⟩
    · simp only [process_compositor_updates]
      rcases hcall : process_compositor_update app st cu with ⟨st', tr⟩
      rw [hcall] at hflat
      simp [hflat]
    · intro i h₁ h₂ c hc
      cases i with
      | zero =>
        obtain ⟨ev, hceq, -, -⟩ := process_compositor_update_trace_mem app st cu c hc
        exact ⟨ev, hceq⟩
      | succ n =>
        simp only [List.length_cons] at h₁ h₂
        exact htag n (by omega) (by omega) c hc

/-! ### Locality and case analysis of the destroy/redraw pass -/

/-- Processing one window id touches only that id's entries. -/
theorem process_window_other (st : WinitState) (wid wid' : WindowId) (h : wid ≠ wid') :
    Store.get (process_window st wid').1.windows wid = Store.get st.windows wid ∧
    Store.get (process_window st wid').1.window_requests wid =
      Store.get st.window_requests wid := by
  simp only [process_window, WindowRequests.take_closed, WindowRequests.take_redraw_requested]
  split_ifs <;>
    simp [Store.get_remove_ne _ _ _ h, Store.get_modify_ne _ _ _ _ h]

/-- A window marked closed is removed from both stores and yields `Destroyed`. -/
theorem process_window_closed (st : WinitState) (wid : WindowId) (r : WindowRequests)
    (h_r : Store.get st.window_requests wid = some r) (h_closed : r.closed = true) :
    process_window st wid =
      ({ st with window_requests := Store.remove st.window_requests wid,
                 windows := Store.remove st.windows wid }, some WindowEvent.Destroyed) := by
  simp [process_window, WindowRequests.take_closed, h_r, h_closed]

/-- A window not marked closed is never destroyed by the pass: the produced
event is not `Destroyed`, the requests entry stays present with its closed
flag still unset, and no key of either store changes. -/
theorem process_window_not_closed (st : WinitState) (wid : WindowId) (r : WindowRequests)
    (h_r : Store.get st.window_requests wid = some r) (h_closed : r.closed = false) :
    (process_window st wid).2 ≠ some WindowEvent.Destroyed ∧
    (∃ r', Store.get (process_window st wid).1.window_requests wid = some r' ∧
      r'.closed = false) ∧
    Store.keys (process_window st wid).1.windows = Store.keys st.windows ∧
    Store.keys (process_window st wid).1.window_requests =
      Store.keys st.window_requests := by
  simp only [process_window, WindowRequests.take_closed, WindowRequests.take_redraw_requested,
    h_r, Option.getD_some, h_closed]
  rw [if_neg (by simp)]
  by_cases hreq : ((Store.get st.windows wid).getD default).frame_callback_state =
      FrameCallbackState.Requested
  · rw [if_pos hreq]
    exact ⟨by simp, ⟨r, h_r, h_closed⟩, rfl, rfl⟩
  · rw [if_neg hreq]
    refine ⟨?_, ?_, by simp [Store.keys_modify], by simp [Store.keys_modify]⟩
    · split_ifs <;> simp
    · refine ⟨{ closed := false, redraw_requested := false }, ?_, rfl⟩
      simp [Store.get_modify_self, h_r]

/-- The redraw decision for one window: no event while a frame callback is
outstanding; otherwise the frame-callback state is reset and the pending
redraw-requested flag consumed before the event is produced, which is
`RedrawRequested` exactly when the flag was set or a refresh is owed. -/
theorem process_window_redraw (st : WinitState) (wid : WindowId) (r : WindowRequests)
    (w : WindowState)
    (h_r : Store.get st.window_requests wid = some r) (h_closed : r.closed = false)
    (h_w : Store.get st.windows wid = some w) :
    (w.frame_callback_state = FrameCallbackState.Requested →
      process_window st wid = (st, none)) ∧
    (w.frame_callback_state ≠ FrameCallbackState.Requested →
      (process_window st wid).2 =
        (if r.redraw_requested || w.redraw_owed then some WindowEvent.RedrawRequested
          else none) ∧
      Store.get (process_window st wid).1.windows wid = some w.frame_callback_reset ∧
      Store.get (process_window st wid).1.window_requests wid =
        some { closed := false, redraw_requested := false }) := by
  constructor
  · intro hreq
    simp [process_window, WindowRequests.take_closed, h_r, h_closed, h_w, hreq]
  · intro hfree
    refine ⟨?_, ?_, ?_⟩ <;>
      simp [process_window, WindowRequests.take_closed, WindowRequests.take_redraw_requested,
        h_r, h_closed, h_w, hfree, Store.get_modify_self, WindowState.refresh_frame,
        WindowState.frame_callback_reset]

/-- The pass leaves the entries of any id it does not visit untouched. -/
theorem process_windows_get_not_mem (st : WinitState) (ids : List WindowId)
    (wid : WindowId) (h : wid ∉ ids) :
    Store.get (process_windows st ids).1.windows wid = Store.get st.windows wid ∧
    Store.get (process_windows st ids).1.window_requests wid =
      Store.get st.window_requests wid := by
  induction ids generalizing st with
  | nil => exact ⟨rfl, rfl⟩
  | cons id₀ rest ih =>
    have hne : wid ≠ id₀ := fun he => h (by simp [he])
    have hrest : wid ∉ rest := fun hm => h (by simp [hm])
    obtain ⟨o₁, o₂⟩ := process_window_other st wid id₀ hne
    simp only [process_windows]
    rcases hcall : process_window st id₀ with ⟨st', ev⟩
    rw [hcall] at o₁ o₂
    simp only at o₁ o₂
    rcases hpass : process_windows st' rest with ⟨st'', tr⟩
    have := ih st' hrest
    rw [hpass] at this
    simp only at this
    exact ⟨this.1.trans o₁, this.2.trans o₂⟩

/-- The pass produces no event scoped to an id it does not visit. -/
theorem process_windows_not_mem_trace (st : WinitState) (ids : List WindowId)
    (wid : WindowId) (h : wid ∉ ids) (ev : WindowEvent) :
    Callback.window_event wid ev ∉ (process_windows st ids).2 := by
  intro hc
  obtain ⟨wid', hmem, ev', heq⟩ := process_windows_trace_mem st ids _ hc
  cases heq
  exact h hmem

/-- The pass trace has no callback tagged with an id it does not visit. -/
theorem process_windows_filter_not_mem (st : WinitState) (ids : List WindowId)
    (wid : WindowId) (h : wid ∉ ids) :
    ((process_windows st ids).2.filter fun c => c.tagged_window == some wid) = [] := by
  rw [List.filter_eq_nil_iff]
  intro c hc
  obtain ⟨wid', hm, ev, heq⟩ := process_windows_trace_mem st ids c hc
  subst heq
  simp only [Callback.tagged_window, beq_iff_eq, Option.some.injEq]
  exact fun h' => h (h' ▸ hm)

/-- A window marked closed gets exactly one `Destroyed` in the pass, it is the
last wid-scoped callback of the pass, and both store entries are gone
afterwards. -/
theorem process_windows_destroyed (st : WinitState) (ids : List WindowId)
    (wid : WindowId) (r : WindowRequests)
    (h_nodup : ids.Nodup) (h_mem : wid ∈ ids)
    (h_r : Store.get st.window_requests wid = some r) (h_closed : r.closed = true) :
    ((process_windows st ids).2.filter fun c => c.tagged_window == some wid) =
      [Callback.window_event wid WindowEvent.Destroyed] ∧
    (process_windows st ids).2.count (Callback.window_event wid WindowEvent.Destroyed) = 1 ∧
    Store.get (process_windows st ids).1.window_requests wid = none ∧
    Store.get (process_windows st ids).1.windows wid = none := by
  induction ids generalizing st with
  | nil => cases h_mem
  | cons id₀ rest ih =>
    rw [List.nodup_cons] at h_nodup
    obtain ⟨h_not, h_nd⟩ := h_nodup
    by_cases hid : id₀ = wid
    · subst hid
      have hclo := process_window_closed st id₀ r h_r h_closed
      rcases hcall : process_window st id₀ with ⟨st', ev⟩
      rw [hcall] at hclo
      have hst' : st' = { st with
          window_requests := Store.remove st.window_requests id₀
          windows := Store.remove st.windows id₀ } := by
        have := congrArg Prod.fst hclo
        simpa using this
      have hev : ev = some WindowEvent.Destroyed := by
        have := congrArg Prod.snd hclo
        simpa using this
      have hgone₁ : Store.get st'.window_requests id₀ = none := by
        rw [hst']
        exact Store.get_remove_self _ _
      have hgone₂ : Store.get st'.windows id₀ = none := by
        rw [hst']
        exact Store.get_remove_self _ _
      have hpres := process_windows_get_not_mem st' rest id₀ h_not
      have hfilter := process_windows_filter_not_mem st' rest id₀ h_not
      have hcount : (process_windows st' rest).2.count
          (Callback.window_event id₀ WindowEvent.Destroyed) = 0 :=
        List.count_eq_zero.mpr (process_windows_not_mem_trace st' rest id₀ h_not _)
      simp only [process_windows, hcall, hev]
      refine ⟨?_, ?_, ?_, ?_⟩
      · rw [List.filter_append, hfilter, List.append_nil]
        simp [Callback.tagged_window]
      · simp [List.count_append, hcount, List.count_cons]
      · exact hpres.2.trans hgone₁
      · exact hpres.1.trans hgone₂
    · have hne : wid ≠ id₀ := fun he => hid he.symm
      rcases hcall : process_window st id₀ with ⟨st', ev⟩
      obtain ⟨o₁, o₂⟩ := process_window_other st wid id₀ hne
      rw [hcall] at o₁ o₂
      simp only at o₁ o₂
      have h_mem' : wid ∈ rest := by
        rcases List.mem_cons.mp h_mem with he | hm
        · exact absurd he hne
        · exact hm
      obtain ⟨ih₁, ih₂, ih₃, ih₄⟩ := ih st' h_nd h_mem' (o₂.trans h_r)
      have hhead : ∀ c ∈ (match ev with
          | some e => [Callback.window_event id₀ e]
          | none => ([] : List Callback)), (c.tagged_window == some wid) = false := by
        intro c hc
        cases ev with
        | some e =>
          simp at hc
          subst hc
          simp [Callback.tagged_window, hid]
        | none => simp at hc
      simp only [process_windows, hcall]
      refine ⟨?_, ?_, ih₃, ih₄⟩
      · rw [List.filter_append]
        rw [List.filter_eq_nil_iff.mpr ?_, List.nil_append]
        · exact ih₁
        · intro c hc
          simp [hhead c hc]
      · rw [List.count_append]
        have hz : (match ev with
            | some e => [Callback.window_event id₀ e]
            | none => ([] : List Callback)).count
              (Callback.window_event wid WindowEvent.Destroyed) = 0 := by
          rw [List.count_eq_zero]
          intro hc
          have := hhead _ hc
          simp [Callback.tagged_window] at this
        rw [hz, ih₂]

/-- A window not marked closed is not destroyed anywhere in the pass, and its
requests entry survives with the closed flag still unset. -/
theorem process_windows_no_destroy (st : WinitState) (ids : List WindowId)
    (wid : WindowId) (r : WindowRequests)
    (h_r : Store.get st.window_requests wid = some r) (h_closed : r.closed = false) :
    Callback.window_event wid WindowEvent.Destroyed ∉ (process_windows st ids).2 ∧
    ∃ r', Store.get (process_windows st ids).1.window_requests wid = some r' ∧
      r'.closed = false := by
  induction ids generalizing st r with
  | nil => exact ⟨by simp [process_windows], r, h_r, h_closed⟩
  | cons id₀ rest ih =>
    rcases hcall : process_window st id₀ with ⟨st', ev⟩
    by_cases hid : id₀ = wid
    · subst hid
      obtain ⟨hnd, ⟨r', hr', hc'⟩, -, -⟩ := process_window_not_closed st id₀ r h_r h_closed
      rw [hcall] at hnd hr'
      simp only at hnd hr'
      obtain ⟨ih₁, ih₂⟩ := ih st' r' hr' hc'
      simp only [process_windows, hcall]
      constructor
      · intro hc
        rcases List.mem_append.mp hc with h₁ | h₁
        · cases ev with
          | some e =>
            simp at h₁
            exact hnd (by rw [h₁])
          | none => simp at h₁
        · exact ih₁ h₁
      · exact ih₂
    · have hne : wid ≠ id₀ := fun he => hid he.symm
      obtain ⟨-, o₂⟩ := process_window_other st wid id₀ hne
      rw [hcall] at o₂
      simp only at o₂
      obtain ⟨ih₁, ih₂⟩ := ih st' r (o₂.trans h_r) h_closed
      simp only [process_windows, hcall]
      constructor
      · intro hc
        rcases List.mem_append.mp hc with h₁ | h₁
        · cases ev with
          | some e =>
            simp at h₁
            exact hne h₁.1
          | none => simp at h₁
        · exact ih₁ h₁
      · exact ih₂

/-- C5: within an iteration, a window marked closed receives exactly one
`Destroyed` event, that event is the last callback scoped to the identity, and
at its production the identity is removed from both the window-requests store
and the windows store; the removal is skipped exactly when the window was not
marked closed (the entry survives and no `Destroyed` is delivered); and once
the identity is absent from the stores and from all pending updates and sinks
(the WindowId-uniqueness invariant after destruction), an iteration delivers
no window-scoped event for it — so exactly one `Destroyed` is ever
delivered. -/
theorem destroyed_terminal (app : App) (st : WinitState) (cause : StartCause)
    (wid : WindowId) (r : WindowRequests)
    (h_nodup : (Store.keys st.window_requests).Nodup)
    (h_r : Store.get st.window_requests wid = some r)
    (h_sink1 : Event.WindowEvent wid WindowEvent.Destroyed ∉ st.window_events_sink)
    (h_sink2 : Event.WindowEvent wid WindowEvent.Destroyed ∉ st.events_sink) :
    (r.closed = true →
      (single_iteration app st cause).trace.count
          (Callback.window_event wid WindowEvent.Destroyed) = 1 ∧
      (∃ pre, (single_iteration app st cause).trace.filter
          (fun c => c.tagged_window == some wid) =
        pre ++ [Callback.window_event wid WindowEvent.Destroyed]) ∧
      Store.get (single_iteration app st cause).state.window_requests wid = none ∧
      Store.get (single_iteration app st cause).state.windows wid = none) ∧
    (r.closed = false →
      Callback.window_event wid WindowEvent.Destroyed ∉
        (single_iteration app st cause).trace ∧
      (Store.get (single_iteration app st cause).state.window_requests wid).isSome =
        true) ∧
    (∀ stq : WinitState, Store.get stq.window_requests wid = none →
      (∀ cu ∈ stq.window_compositor_updates, cu.window_id ≠ wid) →
      (∀ ev : WindowEvent, Event.WindowEvent wid ev ∉ stq.window_events_sink) →
      (∀ ev : WindowEvent, Event.WindowEvent wid ev ∉ stq.events_sink) →
      ∀ ev : WindowEvent, Callback.window_event wid ev ∉
        (single_iteration app stq cause).trace) := by
  rcases hcomp : process_compositor_updates app
      { st with proxy_wake_up := false, window_compositor_updates := [] }
      st.window_compositor_updates with ⟨st₂, ctr⟩
  have hpres := process_compositor_updates_state app
      { st with proxy_wake_up := false, window_compositor_updates := [] }
      st.window_compositor_updates
  rw [hcomp] at hpres
  simp only at hpres
  obtain ⟨-, -, -, hsinkA, hsinkB, -, hkeysR, hclosedmap⟩ := hpres
  rcases hpass : process_windows { st₂ with window_events_sink := [], events_sink := [] }
      (Store.keys st₂.window_requests) with ⟨st₄, ptr⟩
  rcases hpost : post_wait_refresh { st₄ with dispatched_events := false }
      (Store.keys st₂.window_requests) with ⟨st₆, wake⟩
  have hppp := post_wait_refresh_parts { st₄ with dispatched_events := false }
      (Store.keys st₂.window_requests)
  rw [hpost] at hppp
  simp only at hppp
  obtain ⟨pw₁, -, -, -, -, pw₆⟩ := hppp
  have hnodup₂ : (Store.keys st₂.window_requests).Nodup := by
    rw [hkeysR]
    exact h_nodup
  have hctrtag : ∀ ev : WindowEvent, Callback.window_event wid ev ∈ ctr →
      ev ≠ WindowEvent.Destroyed := by
    intro ev hc
    have hc' : Callback.window_event wid ev ∈ (process_compositor_updates app
        { st with proxy_wake_up := false, window_compositor_updates := [] }
        st.window_compositor_updates).2 := by
      rw [hcomp]
      exact hc
    obtain ⟨cu, -, ev', heq, hnd, -⟩ := process_compositor_updates_trace_mem _ _ _ _ hc'
    injection heq with h₁ h₂
    rw [h₂]
    exact hnd
  have hctr0 : ctr.count (Callback.window_event wid WindowEvent.Destroyed) = 0 := by
    rw [List.count_eq_zero]
    intro hc
    exact hctrtag _ hc rfl
  have hm₁ : (st₂.window_events_sink.map event_to_callback).count
      (Callback.window_event wid WindowEvent.Destroyed) = 0 := by
    rw [List.count_eq_zero, window_event_mem_map_sink, hsinkA]
    exact h_sink1
  have hm₂ : (st₂.events_sink.map event_to_callback).count
      (Callback.window_event wid WindowEvent.Destroyed) = 0 := by
    rw [List.count_eq_zero, window_event_mem_map_sink, hsinkB]
    exact h_sink2
  refine ⟨?_, ?_, ?_⟩
  · intro hcl
    have hwid2 : ∃ r₂, Store.get st₂.window_requests wid = some r₂ ∧ r₂.closed = true := by
      have h := hclosedmap wid
      rw [h_r] at h
      cases hx : Store.get st₂.window_requests wid with
      | none => rw [hx] at h; simp at h
      | some r₂ =>
        rw [hx] at h
        simp at h
        exact ⟨r₂, rfl, by rw [h, hcl]⟩
    obtain ⟨r₂, hr₂, hcl₂⟩ := hwid2
    have hmem₂ : wid ∈ Store.keys st₂.window_requests :=
      Store.mem_keys_of_get_some _ _ _ hr₂
    have hdes := process_windows_destroyed
      { st₂ with window_events_sink := [], events_sink := [] }
      (Store.keys st₂.window_requests) wid r₂ hnodup₂ hmem₂ hr₂ hcl₂
    rw [hpass] at hdes
    simp only at hdes
    obtain ⟨hfil, hcnt, hnone₁, hnone₂⟩ := hdes
    have hreqnone : Store.get st₆.window_requests wid = none := by
      have h6 := pw₆ wid
      simp only at h6
      rw [hnone₁] at h6
      cases hx : Store.get st₆.window_requests wid with
      | none => rfl
      | some v => rw [hx] at h6; simp at h6
    have hwinnone : Store.get st₆.windows wid = none := by
      rw [pw₁]
      exact hnone₂
    simp only [single_iteration, hcomp, hpass, hpost]
    refine ⟨?_, ?_, hreqnone, hwinnone⟩
    · simp only [List.count_append, hcnt, hctr0, hm₁, hm₂]
      split_ifs <;> simp [List.count_cons]
    · have hatw : (([Callback.about_to_wait]).filter
          fun c => c.tagged_window == some wid) = [] := by
        simp [Callback.tagged_window]
      simp only [List.filter_append, hfil, hatw, List.append_nil]
      exact ⟨_, rfl⟩
  · intro hcl
    have hwid2 : ∃ r₂, Store.get st₂.window_requests wid = some r₂ ∧ r₂.closed = false := by
      have h := hclosedmap wid
      rw [h_r] at h
      cases hx : Store.get st₂.window_requests wid with
      | none => rw [hx] at h; simp at h
      | some r₂ =>
        rw [hx] at h
        simp at h
        exact ⟨r₂, rfl, by rw [h, hcl]⟩
    obtain ⟨r₂, hr₂, hcl₂⟩ := hwid2
    have hnod := process_windows_no_destroy
      { st₂ with window_events_sink := [], events_sink := [] }
      (Store.keys st₂.window_requests) wid r₂ hr₂ hcl₂
    rw [hpass] at hnod
    simp only at hnod
    obtain ⟨hnd₁, r₄, hr₄, -⟩ := hnod
    have hptr0 : ptr.count (Callback.window_event wid WindowEvent.Destroyed) = 0 :=
      List.count_eq_zero.mpr hnd₁
    have hsome : (Store.get st₆.window_requests wid).isSome = true := by
      have h6 := pw₆ wid
      simp only at h6
      rw [hr₄] at h6
      simpa using h6
    simp only [single_iteration, hcomp, hpass, hpost]
    constructor
    · rw [← List.count_eq_zero]
      simp only [List.count_append, hptr0, hctr0, hm₁, hm₂]
      split_ifs <;> simp [List.count_cons]
    · exact hsome
  · intro stq hq₁ hq₂ hq₃ hq₄ ev
    rcases hcompq : process_compositor_updates app
        { stq with proxy_wake_up := false, window_compositor_updates := [] }
        stq.window_compositor_updates with ⟨stq₂, ctrq⟩
    have hpresq := process_compositor_updates_state app
        { stq with proxy_wake_up := false, window_compositor_updates := [] }
        stq.window_compositor_updates
    rw [hcompq] at hpresq
    simp only at hpresq
    obtain ⟨-, -, -, hsinkAq, hsinkBq, -, -, hclosedmapq⟩ := hpresq
    have hq₂' : Store.get stq₂.window_requests wid = none := by
      have h := hclosedmapq wid
      rw [hq₁] at h
      cases hx : Store.get stq₂.window_requests wid with
      | none => rfl
      | some v => rw [hx] at h; simp at h
    have hnotkey : wid ∉ Store.keys stq₂.window_requests := by
      intro hk
      have := (Store.get_isSome_iff_mem_keys _ _).2 hk
      rw [hq₂'] at this
      simp at this
    rcases hpassq : process_windows { stq₂ with window_events_sink := [], events_sink := [] }
        (Store.keys stq₂.window_requests) with ⟨stq₄, ptrq⟩
    have hptrq : ptrq.count (Callback.window_event wid ev) = 0 := by
      rw [List.count_eq_zero]
      intro hc
      have hc' : Callback.window_event wid ev ∈ (process_windows
          { stq₂ with window_events_sink := [], events_sink := [] }
          (Store.keys stq₂.window_requests)).2 := by
        rw [hpassq]
        exact hc
      exact process_windows_not_mem_trace _ _ wid hnotkey ev hc'
    have hctrq : ctrq.count (Callback.window_event wid ev) = 0 := by
      rw [List.count_eq_zero]
      intro hc
      have hc' : Callback.window_event wid ev ∈ (process_compositor_updates app
          { stq with proxy_wake_up := false, window_compositor_updates := [] }
          stq.window_compositor_updates).2 := by
        rw [hcompq]
        exact hc
      obtain ⟨cu, hcu, ev', heq, -, -⟩ := process_compositor_updates_trace_mem _ _ _ _ hc'
      injection heq with h₁ h₂
      exact hq₂ cu hcu h₁.symm
    have hmq₁ : (stq₂.window_events_sink.map event_to_callback).count
        (Callback.window_event wid ev) = 0 := by
      rw [List.count_eq_zero, window_event_mem_map_sink, hsinkAq]
      exact hq₃ ev
    have hmq₂ : (stq₂.events_sink.map event_to_callback).count
        (Callback.window_event wid ev) = 0 := by
      rw [List.count_eq_zero, window_event_mem_map_sink, hsinkBq]
      exact hq₄ ev
    rcases hpostq : post_wait_refresh { stq₄ with dispatched_events := false }
        (Store.keys stq₂.window_requests) with ⟨stq₆, wakeq⟩
    simp only [single_iteration, hcompq, hpassq, hpostq]
    rw [← List.count_eq_zero]
    simp only [List.count_append, hptrq, hctrq, hmq₁, hmq₂]
    split_ifs <;> simp [List.count_cons]

/-- Witness for C5: an iteration over a state whose window 1 is marked closed
delivers exactly one `Destroyed` for it, as the last callback scoped to it,
and removes it from both stores. -/
theorem destroyed_terminal_witness :
    (Store.keys closing_state.window_requests).Nodup ∧
    Store.get closing_state.window_requests 1 = some ⟨true, false⟩ ∧
    Event.WindowEvent 1 WindowEvent.Destroyed ∉ closing_state.window_events_sink ∧
    ((single_iteration App.passive closing_state StartCause.Poll).trace.count
        (Callback.window_event 1 WindowEvent.Destroyed) = 1 ∧
      (∃ pre, (single_iteration App.passive closing_state StartCause.Poll).trace.filter
          (fun c => c.tagged_window == some 1) =
        pre ++ [Callback.window_event 1 WindowEvent.Destroyed]) ∧
      Store.get (single_iteration App.passive closing_state
        StartCause.Poll).state.window_requests 1 = none ∧
      Store.get (single_iteration App.passive closing_state
        StartCause.Poll).state.windows 1 = none) :=
  ⟨by decide, rfl, by decide,
   (destroyed_terminal App.passive closing_state StartCause.Poll 1 ⟨true, false⟩
      (by decide) rfl (by decide) (by decide)).1 rfl⟩

/-- C6: in the per-window redraw pass, `RedrawRequested` is never delivered
for a window whose frame-callback state is `Requested`; and whenever
`RedrawRequested` is delivered for a window, its frame-callback state was not
`Requested`, the state was reset (the stored window is the frame-callback
reset of the examined one) and the pending redraw-requested flag was consumed
before delivery. -/
theorem redraw_pass_frame_gating (st : WinitState) (ids : List WindowId) (wid : WindowId)
    (w : WindowState) (r : WindowRequests)
    (h_nodup : ids.Nodup)
    (h_w : Store.get st.windows wid = some w)
    (h_r : Store.get st.window_requests wid = some r) :
    (w.frame_callback_state = FrameCallbackState.Requested →
      Callback.window_event wid WindowEvent.RedrawRequested ∉ (process_windows st ids).2) ∧
    (Callback.window_event wid WindowEvent.RedrawRequested ∈ (process_windows st ids).2 →
      w.frame_callback_state ≠ FrameCallbackState.Requested ∧
      Store.get (process_windows st ids).1.windows wid = some w.frame_callback_reset ∧
      Store.get (process_windows st ids).1.window_requests wid =
        some { closed := false, redraw_requested := false }) := by
  induction ids generalizing st h_w h_r with
  | nil =>
    constructor
    · intro _ hc
      simp [process_windows] at hc
    · intro hc
      simp [process_windows] at hc
  | cons id₀ rest ih =>
    rw [List.nodup_cons] at h_nodup
    obtain ⟨h_not, h_nd⟩ := h_nodup
    by_cases hid : id₀ = wid
    · subst hid
      rcases hcall : process_window st id₀ with ⟨st', ev⟩
      have hnotmem : ∀ e : WindowEvent,
          Callback.window_event id₀ e ∉ (process_windows st' rest).2 :=
        fun e => process_windows_not_mem_trace st' rest id₀ h_not e
      by_cases hcl : r.closed = true
      · have hclo := process_window_closed st id₀ r h_r hcl
        rw [hcall] at hclo
        have hev : ev = some WindowEvent.Destroyed := by
          have := congrArg Prod.snd hclo
          simpa using this
        constructor
        · intro _ hc
          simp only [process_windows, hcall, hev] at hc
          exact hnotmem _ (by simpa using hc)
        · intro hc
          exfalso
          simp only [process_windows, hcall, hev] at hc
          exact hnotmem _ (by simpa using hc)
      · have hcl' : r.closed = false := by simpa using hcl
        have hred := process_window_redraw st id₀ r w h_r hcl' h_w
        by_cases hreq : w.frame_callback_state = FrameCallbackState.Requested
        · have heq := hred.1 hreq
          rw [hcall] at heq
          have hev : ev = none := by
            have := congrArg Prod.snd heq
            simpa using this
          constructor
          · intro _ hc
            simp only [process_windows, hcall, hev] at hc
            exact hnotmem _ (by simpa using hc)
          · intro hc
            exfalso
            simp only [process_windows, hcall, hev] at hc
            exact hnotmem _ (by simpa using hc)
        · obtain ⟨hev', hw', hr'⟩ := hred.2 hreq
          rw [hcall] at hev' hw' hr'
          simp only at hev' hw' hr'
          have hpres := process_windows_get_not_mem st' rest id₀ h_not
          constructor
          · intro hreq'
            exact absurd hreq' hreq
          · intro _
            refine ⟨hreq, ?_, ?_⟩
            · simp only [process_windows, hcall]
              rcases hpass : process_windows st' rest with ⟨st'', tr⟩
              rw [hpass] at hpres
              simp only at hpres
              simpa [hpres.1] using hw'
            · simp only [process_windows, hcall]
              rcases hpass : process_windows st' rest with ⟨st'', tr⟩
              rw [hpass] at hpres
              simp only at hpres
              simpa [hpres.2] using hr'
    · rcases hcall : process_window st id₀ with ⟨st', ev⟩
      obtain ⟨o₁, o₂⟩ := process_window_other st wid id₀ fun he => hid he.symm
      rw [hcall] at o₁ o₂
      simp only at o₁ o₂
      have h_w' : Store.get st'.windows wid = some w := o₁.trans h_w
      have h_r' : Store.get st'.window_requests wid = some r := o₂.trans h_r
      have ihres := ih st' h_nd h_w' h_r'
      have hhead : ∀ c ∈ (match ev with
          | some e => [Callback.window_event id₀ e]
          | none => ([] : List Callback)),
          c ≠ Callback.window_event wid WindowEvent.RedrawRequested := by
        intro c hc
        cases ev with
        | some e =>
          simp at hc
          subst hc
          intro hcontra
          cases hcontra
          exact hid rfl
        | none => simp at hc
      constructor
      · intro hreq hc
        simp only [process_windows, hcall] at hc
        rcases List.mem_append.mp (by simpa using hc) with h₁ | h₁
        · exact hhead _ h₁ rfl
        · exact ihres.1 hreq h₁
      · intro hc
        simp only [process_windows, hcall] at hc
        rcases List.mem_append.mp (by simpa using hc) with h₁ | h₁
        · exact absurd rfl (hhead _ h₁)
        · obtain ⟨ha, hb, hc'⟩ := ihres.2 h₁
          refine ⟨ha, ?_, ?_⟩
          · simp only [process_windows, hcall]
            rcases hpass : process_windows st' rest with ⟨st'', tr⟩
            rw [hpass] at hb
            simpa using hb
          · simp only [process_windows, hcall]
            rcases hpass : process_windows st' rest with ⟨st'', tr⟩
            rw [hpass] at hc'
            simpa using hc'

/-- Witness for C6: window 1 (frame state `Idle`, pending redraw request)
receives `RedrawRequested`, its frame-callback state is reset and its
redraw-requested flag has been consumed at delivery. -/
theorem redraw_pass_frame_gating_witness :
    ([1] : List WindowId).Nodup ∧
    Store.get redraw_state.windows 1 = some sample_window ∧
    Store.get redraw_state.window_requests 1 =
      some { closed := false, redraw_requested := true } ∧
    (sample_window.frame_callback_state ≠ FrameCallbackState.Requested ∧
      Store.get (process_windows redraw_state [1]).1.windows 1 =
        some sample_window.frame_callback_reset ∧
      Store.get (process_windows redraw_state [1]).1.window_requests 1 =
        some { closed := false, redraw_requested := false }) :=
  ⟨by decide, rfl, rfl,
   (redraw_pass_frame_gating redraw_state [1] 1 sample_window
      { closed := false, redraw_requested := true } (by decide) rfl rfl).2 (by decide)⟩

/-- C7: two compositor notifications for one window coalesce into a single
merged record (appended at the aggregator position where the window was first
observed); a record with both `scale_changed` and `resized` set yields a
`ScaleFactorChanged` followed by exactly one `SurfaceResized`, never two; per
record the derived events follow the fixed order scale → resize → close; and
across windows the drain processes records in the aggregator's order, each
block of events scoped to its record's window. -/
theorem compositor_update_coalescing_order (app : App) (st : WinitState)
    (updates : List WindowCompositorUpdate) (wid : WindowId)
    (cu : WindowCompositorUpdate) (cus : List WindowCompositorUpdate)
    (h_fresh : wid ∉ updates.map WindowCompositorUpdate.window_id) :
    queue_resized (queue_scale_changed updates wid) wid =
      updates ++ [{ window_id := wid, resized := true, scale_changed := true,
                    close_window := false }] ∧
    (∃ s z₁ z₂, (process_compositor_update app st
        { window_id := wid, resized := true, scale_changed := true,
          close_window := false }).2 =
      [Callback.window_event wid (WindowEvent.ScaleFactorChanged s z₁),
       Callback.window_event wid (WindowEvent.SurfaceResized z₂)]) ∧
    (∃ s z₁ z₂, (process_compositor_update app st cu).2 =
      (if cu.scale_changed then
          [Callback.window_event cu.window_id (WindowEvent.ScaleFactorChanged s z₁)]
        else []) ++
      (if cu.resized || cu.scale_changed then
          [Callback.window_event cu.window_id (WindowEvent.SurfaceResized z₂)]
        else []) ++
      (if cu.close_window then
          [Callback.window_event cu.window_id WindowEvent.CloseRequested]
        else [])) ∧
    (∃ blocks : List (List Callback), blocks.length = cus.length ∧
      (process_compositor_updates app st cus).2 = blocks.flatten ∧
      ∀ i (h₁ : i < blocks.length) (h₂ : i < cus.length), ∀ c ∈ blocks.get ⟨i, h₁⟩,
        ∃ ev, c = Callback.window_event (cus.get ⟨i, h₂⟩).window_id ev) := by
  have hfalse : ∀ u ∈ updates, (u.window_id == wid) = false := by
    intro u hu
    rw [beq_eq_false_iff_ne]
    exact fun heq => h_fresh (List.mem_map.mpr ⟨u, hu, heq⟩)
  refine ⟨?_, ?_, ?_, process_compositor_updates_blocks app st cus⟩
  · have hany : (updates.any fun u => u.window_id == wid) = false := by
      rw [List.any_eq_false]
      intro u hu
      simp [hfalse u hu]
    have hstep1 : queue_scale_changed updates wid =
        updates ++ [{ window_id := wid, resized := false, scale_changed := true,
                      close_window := false }] := by
      simp [queue_scale_changed, queue_compositor_update, hany]
    have hany2 : ((updates ++ [(⟨wid, false, true, false⟩ : WindowCompositorUpdate)]).any
        fun u => u.window_id == wid) = true := by
      simp [List.any_append]
    rw [hstep1]
    simp only [queue_resized, queue_compositor_update, hany2, if_true]
    rw [List.map_append]
    congr 1
    · conv_rhs => rw [← List.map_id updates]
      apply List.map_congr_left
      intro u hu
      simp [hfalse u hu]
    · simp
  · obtain ⟨s, z₁, z₂, htr⟩ := process_compositor_update_trace app st
      { window_id := wid, resized := true, scale_changed := true, close_window := false }
    exact ⟨s, z₁, z₂, by simpa using htr⟩
  · exact process_compositor_update_trace app st cu

/-- Witness for C7 at concrete inputs: an empty aggregator receiving a scale
change then a resize for window 3 holds exactly `[⟨3, resized, scale⟩]`, and
its drain from a one-window state emits `ScaleFactorChanged` then exactly one
`SurfaceResized`. -/
theorem compositor_update_coalescing_order_witness :
    (3 : WindowId) ∉ ([] : List WindowCompositorUpdate).map
      WindowCompositorUpdate.window_id ∧
    queue_resized (queue_scale_changed [] 3) 3 =
      [{ window_id := 3, resized := true, scale_changed := true, close_window := false }] ∧
    (∃ s z₁ z₂, (process_compositor_update App.passive WinitState.empty
        { window_id := 3, resized := true, scale_changed := true,
          close_window := false }).2 =
      [Callback.window_event 3 (WindowEvent.ScaleFactorChanged s z₁),
       Callback.window_event 3 (WindowEvent.SurfaceResized z₂)]) :=
  ⟨by decide,
   by simpa using (compositor_update_coalescing_order App.passive WinitState.empty [] 3
      { window_id := 3, resized := true, scale_changed := true, close_window := false } []
      (by decide)).1,
   (compositor_update_coalescing_order App.passive WinitState.empty [] 3
      { window_id := 3, resized := true, scale_changed := true, close_window := false } []
      (by decide)).2.1⟩

/-- C8: during delivery of `ScaleFactorChanged`, if the size the application
writes into the negotiation handle differs from the size implied by pure
scaling of the current logical size, the record is additionally marked
`resized` (and a `SurfaceResized` for that window is delivered in the same
iteration) and the application-chosen size is written back to the window as
its new logical size; if the application leaves the size unchanged, this step
modifies neither the record's `resized` flag nor the state. -/
theorem scale_factor_size_override (app : App) (st : WinitState)
    (cu : WindowCompositorUpdate) (w : WindowState)
    (h_scale : cu.scale_changed = true)
    (h_get : Store.get st.windows cu.window_id = some w) :
    (logical_to_physical_rounded w.surface_size w.scale_factor ≠
        app.write_size cu.window_id
          (logical_to_physical_rounded w.surface_size w.scale_factor) →
      (process_scale_update app st cu).2.1.resized = true ∧
      Store.get (process_scale_update app st cu).1.windows cu.window_id =
        some { w with surface_size :=
          (physical_to_logical
            (app.write_size cu.window_id
              (logical_to_physical_rounded w.surface_size w.scale_factor))
            w.scale_factor) } ∧
      ∃ z, Callback.window_event cu.window_id (WindowEvent.SurfaceResized z) ∈
        (process_compositor_update app st cu).2) ∧
    (logical_to_physical_rounded w.surface_size w.scale_factor =
        app.write_size cu.window_id
          (logical_to_physical_rounded w.surface_size w.scale_factor) →
      (process_scale_update app st cu).2.1.resized = cu.resized ∧
      (process_scale_update app st cu).1 = st) := by
  constructor
  · intro hne
    refine ⟨?_, ?_, ?_⟩
    · simp [process_scale_update, h_scale, h_get, hne]
    · simp [process_scale_update, h_scale, h_get, hne, Store.get_modify_self]
    · obtain ⟨s, z₁, z₂, htr⟩ := process_compositor_update_trace app st cu
      exact ⟨z₂, by simp [htr, h_scale]⟩
  · intro heq
    constructor <;> simp [process_scale_update, h_scale, h_get, ← heq]

/-- Witness for C8: a window of logical size 4×4 at scale 2 whose application
overrides the proposed 8×8 physical size with 6×6: the record is marked
resized and the window's logical size becomes 3×3. -/
theorem scale_factor_size_override_witness :
    sample_scale_record.scale_changed = true ∧
    Store.get sample_scale_state.windows 1 = some sample_window ∧
    ((process_scale_update resize_app sample_scale_state
        sample_scale_record).2.1.resized = true ∧
      Store.get (process_scale_update resize_app sample_scale_state
          sample_scale_record).1.windows 1 =
        some { sample_window with surface_size := (3, 3) } ∧
      ∃ z, Callback.window_event 1 (WindowEvent.SurfaceResized z) ∈
        (process_compositor_update resize_app sample_scale_state sample_scale_record).2) := by
  refine ⟨rfl, rfl, ?_⟩
  have h := (scale_factor_size_override resize_app sample_scale_state
    sample_scale_record sample_window rfl rfl).1 (by decide)
  simpa [sample_window] using h

/-- C1: every iteration invokes the callbacks in the fixed phase order:
`new_events(cause)` first; `can_create_surfaces` exactly when the cause is
`Init`; `proxy_wake_up` exactly when a proxy wake was pending; then the
compositor-derived window events; then the raw window- and device-scoped sink
events in arrival order; then the destroy/redraw pass events; and
`about_to_wait` strictly last — the intermediate phases consist only of
`window_event`/`device_event` callbacks, so no callback follows
`about_to_wait`. -/
theorem single_iteration_phase_order (app : App) (st : WinitState) (cause : StartCause) :
    ∃ trace_compositor trace_pass : List Callback,
      (single_iteration app st cause).trace =
        Callback.new_events cause ::
          ((if cause = StartCause.Init then [Callback.can_create_surfaces] else []) ++
            (if st.proxy_wake_up then [Callback.proxy_wake_up] else []) ++
            trace_compositor ++
            (st.window_events_sink ++ st.events_sink).map event_to_callback ++
            trace_pass ++ [Callback.about_to_wait]) ∧
      (∀ c ∈ trace_compositor, c.is_event_callback = true) ∧
      (∀ c ∈ trace_pass, c.is_event_callback = true) := by
  have hpres := process_compositor_updates_state app
    { st with proxy_wake_up := false, window_compositor_updates := [] }
    st.window_compositor_updates
  rcases hcomp : process_compositor_updates app
      { st with proxy_wake_up := false, window_compositor_updates := [] }
      st.window_compositor_updates with ⟨st₂, ctr⟩
  rw [hcomp] at hpres
  simp only at hpres
  obtain ⟨-, -, -, hsink1, hsink2, -, -, -⟩ := hpres
  rcases hpass : process_windows { st₂ with window_events_sink := [], events_sink := [] }
      (Store.keys st₂.window_requests) with ⟨st₃, ptr⟩
  refine ⟨ctr, ptr, ?_, ?_, ?_⟩
  · simp only [single_iteration, hcomp, hsink1, hsink2, hpass]
    simp [List.map_append]
  · intro c hc
    have hc' : c ∈ (process_compositor_updates app
        { st with proxy_wake_up := false, window_compositor_updates := [] }
        st.window_compositor_updates).2 := by
      rw [hcomp]
      exact hc
    obtain ⟨cu, -, ev, hceq, -, -⟩ := process_compositor_updates_trace_mem _ _ _ _ hc'
    subst hceq
    rfl
  · intro c hc
    have hc' : c ∈ (process_windows { st₂ with window_events_sink := [], events_sink := [] }
        (Store.keys st₂.window_requests)).2 := by
      rw [hpass]
      exact hc
    obtain ⟨wid, -, ev, hceq⟩ := process_windows_trace_mem _ _ _ hc'
    subst hceq
    rfl

end WinitWayland
